import Mathlib

/-!
Verification of the live session pipeline of `google.adk` (adk-python).

The repository's public packages re-export `LiveRequest` and
`LiveRequestQueue` from `google.adk.agents`, `Runner` from `google.adk`,
and `BaseLlmConnection` / `GeminiLlmConnection` from `google.adk.models`.
The bodies of those modules are not part of the visible sources, so the
data model and the operations below are modelled from the specification
(sections 3, 4.1, 4.2 and 4.3); the export lists are embedded directly
from the three `__init__.py` files.
-/

namespace Adk

/-- Modelled from the spec: `LiveEvent` (exported by the code under the
name `LiveRequest`), the tagged union of one unit of live traffic:
`Content{role, parts}`, `Blob{mime_type, data}`, `Activity{kind}` with
kind in `{start, end}`, and the `Close` sentinel. -/
inductive LiveRequest where
  | content (role : String) (parts : List String)
  | blob (mime_type : String) (data : List Nat)
  | activity (start : Bool)
  | close
  deriving DecidableEq, Repr

/-- Error raised when enqueuing on a queue after a `Close` was enqueued
or `close()` was called. -/
inductive EnqueueError where
  | alreadyClosed
  deriving DecidableEq, Repr

/-- Modelled from the spec: `LiveRequestQueue` state — an ordered buffer
of pending events plus the closed flag set by a `Close` enqueue, by
`close()` or by `cancel()`. -/
structure LiveRequestQueue where
  buffer : List LiveRequest
  closed : Bool
  deriving DecidableEq, Repr

/-- A freshly created queue: empty, not closed. -/
def LiveRequestQueue.empty : LiveRequestQueue := { buffer := [], closed := false }

/-- Modelled from the spec: `enqueue(event)` appends the event at the
tail preserving submission order, fails with `AlreadyClosed` if a `Close`
was already enqueued, and never suspends — for every state it returns a
result at once (its outcome type has no pending case, unlike `dequeue`).
Enqueuing the `Close` sentinel marks the queue closed. -/
def LiveRequestQueue.enqueue (q : LiveRequestQueue) (e : LiveRequest) :
    Except EnqueueError LiveRequestQueue :=
  if q.closed then .error .alreadyClosed
  else
    match e with
    | .close => .ok { q with closed := true }
    | _ => .ok { q with buffer := q.buffer ++ [e] }

/-- Enqueue a whole list of events in order, stopping at the first error. -/
def LiveRequestQueue.enqueueList (q : LiveRequestQueue) :
    List LiveRequest → Except EnqueueError LiveRequestQueue
  | [] => .ok q
  | e :: es =>
    match q.enqueue e with
    | .error err => .error err
    | .ok q1 => q1.enqueueList es

/-- Outcome of one `dequeue()` call: the next event in FIFO order, the
end-of-stream indicator once drained-and-closed, or a suspension of the
caller while the queue is empty but not closed. -/
inductive DequeueStep where
  | item (e : LiveRequest) (rest : LiveRequestQueue)
  | endOfStream
  | pending
  deriving DecidableEq, Repr

/-- Modelled from the spec: `dequeue()` returns the next event in FIFO
order, suspends on an empty non-closed queue, and yields the end-of-stream
indicator (not an error) once the queue is drained and closed. -/
def LiveRequestQueue.dequeue (q : LiveRequestQueue) : DequeueStep :=
  match q.buffer with
  | e :: rest => .item e { q with buffer := rest }
  | [] => if q.closed then .endOfStream else .pending

/-- Modelled from the spec: `close()` marks that no further enqueues are
permitted; the buffered events are kept for delivery. -/
def LiveRequestQueue.closeQueue (q : LiveRequestQueue) : LiveRequestQueue :=
  { q with closed := true }

/-- Modelled from the spec: `cancel()` immediately discards buffered
events and transitions to closed. -/
def LiveRequestQueue.cancel (_q : LiveRequestQueue) : LiveRequestQueue :=
  { buffer := [], closed := true }

/-- Repeated dequeue with the given fuel: the list of events delivered,
and whether the end-of-stream indicator was reached. -/
def LiveRequestQueue.drain : Nat → LiveRequestQueue → List LiveRequest × Bool
  | 0, _ => ([], false)
  | n + 1, q =>
    match q.dequeue with
    | .item e rest =>
      let p := rest.drain n
      (e :: p.1, p.2)
    | .endOfStream => ([], true)
    | .pending => ([], false)

/-- Modelled from the spec: one backend wire message seen by the Backend
Connection Adapter (`GeminiLlmConnection`): a content fragment of the
in-progress turn, the backend's explicit turn-done signal, or a report
that the user began speaking/typing (barge-in). -/
inductive BackendMessage where
  | fragment (delta : String)
  | turnComplete
  | activityStart
  deriving DecidableEq, Repr

/-- Modelled from the spec: the normalized response event the adapter
emits: an optional content delta plus the `is_turn_complete` and
`is_interrupted` flags. -/
structure LlmResponse where
  content_delta : Option String
  is_turn_complete : Bool
  is_interrupted : Bool
  deriving DecidableEq, Repr

/-- Modelled from the spec: adapter-internal drain-side state — whether a
model turn is in progress and whether that turn was abandoned by an
interruption (further deltas for it are suppressed). -/
structure AdapterState where
  turnInProgress : Bool
  abandoned : Bool
  deriving DecidableEq, Repr

/-- Adapter state at connection open: no turn in progress. -/
def AdapterState.init : AdapterState := { turnInProgress := false, abandoned := false }

/-- Modelled from the spec: process one backend message, returning the
new adapter state and the normalized events emitted for it. A fragment
is emitted immediately as a `content_delta` event unless the turn was
abandoned; the turn-done signal emits the `is_turn_complete` event and
resets the turn; user activity during a live turn emits exactly one
`is_interrupted` event and marks the turn abandoned. -/
def processMsg (s : AdapterState) (m : BackendMessage) :
    AdapterState × List LlmResponse :=
  match m with
  | .fragment d =>
    if s.abandoned then (s, [])
    else ({ s with turnInProgress := true },
      [{ content_delta := some d, is_turn_complete := false, is_interrupted := false }])
  | .turnComplete =>
    ({ turnInProgress := false, abandoned := false },
      [{ content_delta := none, is_turn_complete := true, is_interrupted := false }])
  | .activityStart =>
    if s.turnInProgress && !s.abandoned then
      ({ s with abandoned := true },
        [{ content_delta := none, is_turn_complete := false, is_interrupted := true }])
    else (s, [])

/-- Process a whole backend message sequence, threading the adapter state
and concatenating the emitted normalized events in order. -/
def processAll (s : AdapterState) :
    List BackendMessage → AdapterState × List LlmResponse
  | [] => (s, [])
  | m :: ms =>
    ((processAll (processMsg s m).1 ms).1,
      (processMsg s m).2 ++ (processAll (processMsg s m).1 ms).2)

/-- The normalized response events the adapter emits for a backend
message sequence, starting from the given state. -/
def receiveEvents (s : AdapterState) (ms : List BackendMessage) : List LlmResponse :=
  (processAll s ms).2

/-- Modelled from the spec: the `LiveConnection` lifecycle states. -/
inductive ConnState where
  | opened
  | closing
  | closed
  deriving DecidableEq, Repr

/-- Modelled from the spec: error outcomes of `send(event)` on a
`LiveConnection` (`BaseLlmConnection`). -/
inductive SendError where
  | connectionClosed
  | backendRejected (reason : String)
  deriving DecidableEq, Repr

/-- Modelled from the spec: a `LiveConnection` (`BaseLlmConnection`):
its lifecycle state, the events forwarded to the backend so far, and the
backend messages pending on the wire for `receive()`. -/
structure BaseLlmConnection where
  state : ConnState
  sent : List LiveRequest
  backendMsgs : List BackendMessage
  deriving DecidableEq, Repr

/-- Modelled from the spec: `send(event)` forwards a live event to the
backend; a connection in the closed state rejects the send with
`ConnectionClosed` instead of forwarding it. -/
def BaseLlmConnection.send (c : BaseLlmConnection) (e : LiveRequest) :
    Except SendError BaseLlmConnection :=
  match c.state with
  | .closed => .error .connectionClosed
  | _ => .ok { c with sent := c.sent ++ [e] }

/-- Modelled from the spec: `receive()` produces the sequence of
normalized response events; a connection in the closed state yields an
empty terminal sequence. -/
def BaseLlmConnection.receive (c : BaseLlmConnection) : List LlmResponse :=
  match c.state with
  | .closed => []
  | _ => receiveEvents AdapterState.init c.backendMsgs

/-- The `__all__` export list of `src/google/adk/__init__.py`. -/
def google_adk_all : List String := ["Runner"]

/-- The `__all__` export list of `src/google/adk/agents/__init__.py`. -/
def google_adk_agents_all : List String := ["LiveRequest", "LiveRequestQueue"]

/-- The `__all__` export list of `src/google/adk/models/__init__.py`. -/
def google_adk_models_all : List String :=
  ["AnthropicLlm", "LiteLlm", "BaseLlmConnection", "GeminiLlmConnection"]

/-! Helper lemmas about the queue. -/

/-- Enqueuing a list of non-`Close` events on a non-closed queue succeeds
and appends them to the buffer in submission order. -/
theorem enqueueList_no_close (es : List LiveRequest) :
    ∀ buf : List LiveRequest, (∀ e ∈ es, e ≠ .close) →
      LiveRequestQueue.enqueueList ⟨buf, false⟩ es = .ok ⟨buf ++ es, false⟩ := by
  induction es with
  | nil =>
    intro buf _
    simp [LiveRequestQueue.enqueueList]
  | cons e es ih =>
    intro buf h
    have he : e ≠ LiveRequest.close := h e (List.mem_cons_self e es)
    have hes : ∀ x ∈ es, x ≠ LiveRequest.close :=
      fun x hx => h x (List.mem_cons_of_mem e hx)
    cases e with
    | close => exact absurd rfl he
    | content role parts =>
      simp [LiveRequestQueue.enqueueList, LiveRequestQueue.enqueue, ih _ hes]
    | blob mt d =>
      simp [LiveRequestQueue.enqueueList, LiveRequestQueue.enqueue, ih _ hes]
    | activity s =>
      simp [LiveRequestQueue.enqueueList, LiveRequestQueue.enqueue, ih _ hes]

/-- Draining a closed queue with enough fuel delivers exactly the buffer
in FIFO order and reaches the end-of-stream indicator. -/
theorem drain_closed (buf : List LiveRequest) :
    LiveRequestQueue.drain (buf.length + 1) ⟨buf, true⟩ = (buf, true) := by
  induction buf with
  | nil => simp [LiveRequestQueue.drain, LiveRequestQueue.dequeue]
  | cons e rest ih =>
    show LiveRequestQueue.drain (rest.length + 1 + 1) ⟨e :: rest, true⟩ = (e :: rest, true)
    have hstep : LiveRequestQueue.drain (rest.length + 1 + 1) ⟨e :: rest, true⟩ =
        (e :: (LiveRequestQueue.drain (rest.length + 1) ⟨rest, true⟩).1,
          (LiveRequestQueue.drain (rest.length + 1) ⟨rest, true⟩).2) := rfl
    rw [hstep, ih]

/-- Claim C1: for every sequence of (non-sentinel) events enqueued on a
fresh LiveRequestQueue followed by a close, repeated dequeue returns
exactly those events in the order they were enqueued, followed by the
end-of-stream indicator (not an error). -/
theorem C1_fifo_then_end_of_stream (es : List LiveRequest)
    (h : ∀ e ∈ es, e ≠ .close) :
    ∃ q, LiveRequestQueue.enqueueList LiveRequestQueue.empty es = .ok q ∧
      q.closeQueue.drain (es.length + 1) = (es, true) := by
  refine ⟨⟨es, false⟩, ?_, ?_⟩
  · simpa [LiveRequestQueue.empty] using enqueueList_no_close es [] h
  · exact drain_closed es

/-- Witness for C1 at a concrete two-event sequence. -/
theorem C1_witness :
    ∃ q, LiveRequestQueue.enqueueList LiveRequestQueue.empty
        [.content "user" ["hi"], .blob "audio/pcm" [1, 2]] = .ok q ∧
      q.closeQueue.drain 3 =
        ([.content "user" ["hi"], .blob "audio/pcm" [1, 2]], true) :=
  C1_fifo_then_end_of_stream
    [.content "user" ["hi"], .blob "audio/pcm" [1, 2]] (by decide)

/-- Claim C2: once the queue is closed (by `close()` or by enqueuing the
`Close` sentinel), every subsequent enqueue attempt fails with
`AlreadyClosed`; it never silently succeeds, and the late event is never
delivered by dequeue. -/
theorem C2_enqueue_after_close_fails (q : LiveRequestQueue) (e : LiveRequest)
    (hq : q.closed = false) (he : e ∉ q.buffer) :
    (q.closeQueue.enqueue e = .error .alreadyClosed ∧
      e ∉ (q.closeQueue.drain (q.buffer.length + 1)).1) ∧
    ∃ q1, q.enqueue .close = .ok q1 ∧
      q1.enqueue e = .error .alreadyClosed ∧
      e ∉ (q1.drain (q.buffer.length + 1)).1 := by
  have hdrain : LiveRequestQueue.drain (q.buffer.length + 1) q.closeQueue =
      (q.buffer, true) := drain_closed q.buffer
  refine ⟨⟨?_, ?_⟩, q.closeQueue, ?_, ?_, ?_⟩
  · simp [LiveRequestQueue.enqueue, LiveRequestQueue.closeQueue]
  · rw [hdrain]; exact he
  · simp [LiveRequestQueue.enqueue, hq, LiveRequestQueue.closeQueue]
  · simp [LiveRequestQueue.enqueue, LiveRequestQueue.closeQueue]
  · rw [hdrain]; exact he

/-- Witness for C2 at a concrete queue and late event. -/
theorem C2_witness :
    ((LiveRequestQueue.closeQueue ⟨[.activity true], false⟩).enqueue
        (.blob "audio/pcm" []) = .error .alreadyClosed ∧
      LiveRequest.blob "audio/pcm" [] ∉
        ((LiveRequestQueue.closeQueue ⟨[.activity true], false⟩).drain 2).1) ∧
    ∃ q1, LiveRequestQueue.enqueue ⟨[.activity true], false⟩ .close = .ok q1 ∧
      q1.enqueue (.blob "audio/pcm" []) = .error .alreadyClosed ∧
      LiveRequest.blob "audio/pcm" [] ∉ (q1.drain 2).1 :=
  C2_enqueue_after_close_fails ⟨[.activity true], false⟩
    (.blob "audio/pcm" []) rfl (by decide)

/-- Claim C3: `close()` is idempotent — a second close leaves the queue
state (hence the dequeue-observable sequence) unchanged — and it does not
discard buffered events: everything enqueued before the close is still
delivered by dequeue, in order, before the end-of-stream indicator. -/
theorem C3_close_idempotent_preserves_buffer (q : LiveRequestQueue) :
    q.closeQueue.closeQueue = q.closeQueue ∧
    q.closeQueue.drain (q.buffer.length + 1) = (q.buffer, true) :=
  ⟨rfl, drain_closed q.buffer⟩

/-- Claim C4: `cancel()` discards every buffered-but-undelivered event and
transitions the queue to closed: dequeue returns the end-of-stream
indicator immediately, and however much fuel dequeuing is given it never
returns any of the discarded events. -/
theorem C4_cancel_discards_and_closes (q : LiveRequestQueue) :
    q.cancel.closed = true ∧ q.cancel.dequeue = .endOfStream ∧
    ∀ n, q.cancel.drain (n + 1) = ([], true) := by
  refine ⟨rfl, rfl, fun n => ?_⟩
  simp [LiveRequestQueue.cancel, LiveRequestQueue.drain, LiveRequestQueue.dequeue]

/-- Claim C9: on a not-yet-closed queue, `enqueue` completes immediately
with success for every event and every buffer content, however large —
its outcome type has no suspension case (unlike `DequeueStep.pending` for
`dequeue`), so the producer is never blocked. -/
theorem C9_enqueue_never_blocks (q : LiveRequestQueue) (e : LiveRequest)
    (h : q.closed = false) :
    ∃ q1, q.enqueue e = .ok q1 := by
  cases e <;> simp [LiveRequestQueue.enqueue, h]

/-- Witness for C9 at a concrete non-closed queue with a buffered burst. -/
theorem C9_witness :
    ∃ q1, LiveRequestQueue.enqueue
      ⟨[.activity true, .blob "audio/pcm" [0], .activity false], false⟩
      (.content "user" ["more"]) = .ok q1 :=
  C9_enqueue_never_blocks
    ⟨[.activity true, .blob "audio/pcm" [0], .activity false], false⟩
    (.content "user" ["more"]) rfl

/-! Helper lemmas about the adapter. -/

/-- Every event a single `processMsg` step emits has at most one of the
two control flags set. -/
theorem processMsg_not_both_flags (s : AdapterState) (m : BackendMessage)
    (ev : LlmResponse) (h : ev ∈ (processMsg s m).2) :
    ¬(ev.is_turn_complete = true ∧ ev.is_interrupted = true) := by
  cases m with
  | fragment d =>
    cases hs : s.abandoned with
    | true => simp [processMsg, hs] at h
    | false =>
      simp [processMsg, hs] at h
      subst h
      simp
  | turnComplete =>
    simp [processMsg] at h
    subst h
    simp
  | activityStart =>
    cases hc : s.turnInProgress && !s.abandoned with
    | false => simp [processMsg, hc] at h
    | true =>
      simp [processMsg, hc] at h
      subst h
      simp

/-- Processing a concatenation threads the state and concatenates the
emitted events. -/
theorem processAll_append (s : AdapterState) (xs ys : List BackendMessage) :
    processAll s (xs ++ ys) =
      ((processAll (processAll s xs).1 ys).1,
        (processAll s xs).2 ++ (processAll (processAll s xs).1 ys).2) := by
  induction xs generalizing s with
  | nil => simp [processAll]
  | cons x xs ih => simp [processAll, ih]

/-- Once the current turn is abandoned, a run of plain fragments emits
nothing and leaves the adapter state unchanged. -/
theorem processAll_fragments_abandoned (s : AdapterState) (hs : s.abandoned = true)
    (ms : List BackendMessage) (hms : ∀ m ∈ ms, ∃ d, m = .fragment d) :
    processAll s ms = (s, []) := by
  induction ms with
  | nil => simp [processAll]
  | cons m ms ih =>
    obtain ⟨d, rfl⟩ := hms m (List.mem_cons_self m ms)
    have h2 : ∀ x ∈ ms, ∃ d, x = BackendMessage.fragment d :=
      fun x hx => hms x (List.mem_cons_of_mem _ hx)
    simp [processAll, processMsg, hs, ih h2]

/-- Claim C5: for a backend sequence of three content fragments of one
turn followed by the turn-done signal, the adapter emits exactly four
normalized events; the first three carry `is_turn_complete = false` and
the fourth carries `is_turn_complete = true`. -/
theorem C5_three_fragments_then_turn_done (d1 d2 d3 : String) :
    receiveEvents AdapterState.init
        [.fragment d1, .fragment d2, .fragment d3, .turnComplete] =
      [{ content_delta := some d1, is_turn_complete := false, is_interrupted := false },
        { content_delta := some d2, is_turn_complete := false, is_interrupted := false },
        { content_delta := some d3, is_turn_complete := false, is_interrupted := false },
        { content_delta := none, is_turn_complete := true, is_interrupted := false }] := by
  simp [receiveEvents, processAll, processMsg, AdapterState.init]

/-- Claim C6: on every backend input sequence and from every adapter
state, no emitted normalized event has `is_turn_complete` and
`is_interrupted` both true. -/
theorem C6_flags_never_both_true (s : AdapterState) (ms : List BackendMessage)
    (ev : LlmResponse) (h : ev ∈ receiveEvents s ms) :
    ¬(ev.is_turn_complete = true ∧ ev.is_interrupted = true) := by
  induction ms generalizing s with
  | nil => simp [receiveEvents, processAll] at h
  | cons m ms ih =>
    have hsplit : receiveEvents s (m :: ms) =
        (processMsg s m).2 ++ receiveEvents (processMsg s m).1 ms := rfl
    rw [hsplit, List.mem_append] at h
    cases h with
    | inl h1 => exact processMsg_not_both_flags s m ev h1
    | inr h2 => exact ih _ h2

/-- Witness for C6 at the turn-done event of a concrete sequence. -/
theorem C6_witness :
    ¬(({ content_delta := none, is_turn_complete := true,
          is_interrupted := false } : LlmResponse).is_turn_complete = true ∧
      ({ content_delta := none, is_turn_complete := true,
          is_interrupted := false } : LlmResponse).is_interrupted = true) :=
  C6_flags_never_both_true AdapterState.init [.turnComplete]
    { content_delta := none, is_turn_complete := true, is_interrupted := false }
    (by simp [receiveEvents, processAll, processMsg])

/-- Claim C7: if the backend reports user activity while a model turn is
in progress (turn live, not yet abandoned), the adapter emits exactly one
`is_interrupted = true` event for that turn and suppresses every further
fragment of the abandoned turn, while the deltas already emitted before
the interruption remain unchanged as the same observed sequence. -/
theorem C7_barge_in_interrupts_once (pre post : List BackendMessage)
    (h1 : (processAll AdapterState.init pre).1.turnInProgress = true)
    (h2 : (processAll AdapterState.init pre).1.abandoned = false)
    (hpost : ∀ m ∈ post, ∃ d, m = .fragment d) :
    receiveEvents AdapterState.init (pre ++ .activityStart :: post) =
      receiveEvents AdapterState.init pre ++
        [{ content_delta := none, is_turn_complete := false,
            is_interrupted := true }] := by
  have hmsg : processMsg (processAll AdapterState.init pre).1 .activityStart =
      ({ (processAll AdapterState.init pre).1 with abandoned := true },
        [{ content_delta := none, is_turn_complete := false,
            is_interrupted := true }]) := by
    simp [processMsg, h1, h2]
  have htail : processAll (processAll AdapterState.init pre).1
      (BackendMessage.activityStart :: post) =
      ({ (processAll AdapterState.init pre).1 with abandoned := true },
        [{ content_delta := none, is_turn_complete := false,
            is_interrupted := true }]) := by
    have hsupp := processAll_fragments_abandoned
      { (processAll AdapterState.init pre).1 with abandoned := true } rfl post hpost
    simp [processAll, hmsg, hsupp]
  unfold receiveEvents
  rw [processAll_append, htail]

/-- Witness for C7: one emitted fragment, then barge-in, then a suppressed
fragment. -/
theorem C7_witness :
    receiveEvents AdapterState.init
        ([.fragment "a"] ++ .activityStart :: [.fragment "b"]) =
      receiveEvents AdapterState.init [.fragment "a"] ++
        [{ content_delta := none, is_turn_complete := false,
            is_interrupted := true }] :=
  C7_barge_in_interrupts_once [.fragment "a"] [.fragment "b"] rfl rfl
    (by intro m hm; simp at hm; exact ⟨"b", hm⟩)

/-- Claim C8: a connection in the closed state rejects every send with
`ConnectionClosed` (the event is not forwarded) and `receive()` yields the
empty terminal response sequence. -/
theorem C8_closed_connection_rejects (c : BaseLlmConnection) (e : LiveRequest)
    (h : c.state = .closed) :
    c.send e = .error .connectionClosed ∧ c.receive = [] := by
  obtain ⟨st, sent, msgs⟩ := c
  cases h
  exact ⟨rfl, rfl⟩

/-- Witness for C8 at a concrete closed connection. -/
theorem C8_witness :
    BaseLlmConnection.send ⟨.closed, [], [.turnComplete]⟩ .close =
        .error .connectionClosed ∧
      BaseLlmConnection.receive ⟨.closed, [], [.turnComplete]⟩ = [] :=
  C8_closed_connection_rejects ⟨.closed, [], [.turnComplete]⟩ .close rfl

/-- Claim C10: `google.adk.agents` exports exactly `LiveRequest` and
`LiveRequestQueue` (the inbound event type is named `LiveRequest`, not
`LiveEvent`); the top-level `google.adk` exports exactly `Runner`; and
`google.adk.models` exports `BaseLlmConnection` and
`GeminiLlmConnection`. -/
theorem C10_export_lists :
    google_adk_agents_all = ["LiveRequest", "LiveRequestQueue"] ∧
    "LiveEvent" ∉ google_adk_agents_all ∧
    google_adk_all = ["Runner"] ∧
    "BaseLlmConnection" ∈ google_adk_models_all ∧
    "GeminiLlmConnection" ∈ google_adk_models_all := by
  refine ⟨rfl, ?_, rfl, ?_, ?_⟩ <;> simp [google_adk_agents_all, google_adk_models_all]

end Adk
